import Mathlib

/-
Verification development for the resilient web-search client subsystem
(rate limiter, TTL cache, SSRF security filter, search orchestration and
Sonar answer escalation).  Each definition is a shallow embedding of the
corresponding TypeScript function; machine arithmetic that matters
(JavaScript 32-bit bitwise operators) is modelled explicitly on Int,
JavaScript truthiness of optional values is modelled by explicit
`jsOr*` helpers, and the effectful orchestration functions are modelled
by explicit state passing plus an oracle for each network call, returning
the list of externally visible events in order.
-/

namespace Spec

/-! ## JavaScript value helpers

`a || b` in JavaScript picks `b` when `a` is falsy (undefined, empty
string, 0).  Arrays — even empty ones — are truthy. -/

/-- JS `x || d` for an optional string (`undefined` and `""` are falsy). -/
def jsOrStr (x : Option String) (d : String) : String :=
  match x with
  | some s => if s = "" then d else s
  | none => d

/-- JS `x || d` for an optional number (`undefined` and `0` are falsy). -/
def jsOrNum (x : Option Int) (d : Int) : Int :=
  match x with
  | some v => if v = 0 then d else v
  | none => d

/-- JS `x || null` for an optional string: `""` collapses to null. -/
def jsStrFalsyToNone (x : Option String) : Option String :=
  match x with
  | some s => if s = "" then none else some s
  | none => none

/-- JS `x || null` for an optional number: `0` collapses to null. -/
def jsNumFalsyToNone (x : Option Int) : Option Int :=
  match x with
  | some v => if v = 0 then none else some v
  | none => none

/-! ## JavaScript 32-bit integer arithmetic

JS bitwise operators coerce their operands to 32-bit two's-complement
integers.  We model this explicitly on `Int`. -/

/-- Reinterpret an integer as a signed 32-bit value (JS `ToInt32`). -/
def asInt32 (n : Int) : Int :=
  let m := n % 4294967296
  if m ≥ 2147483648 then m - 4294967296 else m

/-- JS `a << b` (shift count is taken mod 32). -/
def jsShl (a : Int) (b : Nat) : Int :=
  asInt32 (asInt32 a * 2 ^ (b % 32))

/-- JS `~a`. -/
def jsNot (a : Int) : Int :=
  -(asInt32 a) - 1

/-- JS `a & b`. -/
def jsAnd (a b : Int) : Int :=
  asInt32 (Int.ofNat (Nat.land ((a % 4294967296).toNat) ((b % 4294967296).toNat)))

/-! ## Character-list string utilities

Small executable helpers used to model `String.prototype.split`, the
IPv4 regular expression, and `new URL`. -/

/-- Split at the first occurrence of `delim`; `none` when absent. -/
def splitFirst (delim : Char) : List Char → Option (List Char × List Char)
  | [] => none
  | c :: cs =>
    if c = delim then some ([], cs)
    else
      match splitFirst delim cs with
      | some p => some (c :: p.1, p.2)
      | none => none

/-- Split at the last occurrence of `delim`; `none` when absent. -/
def splitLast (delim : Char) (l : List Char) : Option (List Char × List Char) :=
  match splitFirst delim l.reverse with
  | some p => some (p.2.reverse, p.1.reverse)
  | none => none

/-- Split on every occurrence of `delim`, keeping empty segments
(the semantics of JS `s.split(d)`). -/
def splitAll (delim : Char) : List Char → List (List Char)
  | [] => [[]]
  | c :: cs =>
    let rest := splitAll delim cs
    if c = delim then [] :: rest
    else
      match rest with
      | r :: rs => (c :: r) :: rs
      | [] => [[c]]

/-- Numeric value of a digit string (only applied to all-digit input). -/
def digitsVal (l : List Char) : Nat :=
  l.foldl (fun acc c => acc * 10 + (c.toNat - 48)) 0

/-- One group of the IPv4 regex `(\d{1,3})`: 1 to 3 digits. -/
def octetGroup (l : List Char) : Bool :=
  decide (1 ≤ l.length) && decide (l.length ≤ 3) && l.all Char.isDigit

/-- Match `^(\d{1,3})\.(\d{1,3})\.(\d{1,3})\.(\d{1,3})$` and return the
four numeric groups (as in the source, no range check here). -/
def parseOctets4 (s : String) : Option (Nat × Nat × Nat × Nat) :=
  match splitAll '.' s.data with
  | [a, b, c, d] =>
    if octetGroup a && octetGroup b && octetGroup c && octetGroup d then
      some (digitsVal a, digitsVal b, digitsVal c, digitsVal d)
    else none
  | _ => none

/-- JS `parseInt(s, 10)` restricted to the all-digit case (`none` = NaN). -/
def parseIntAll (l : List Char) : Option Nat :=
  if l ≠ [] && l.all Char.isDigit then some (digitsVal l) else none

/-- ASCII lower-casing, as applied by `new URL` to scheme and host. -/
def toLowerChar (c : Char) : Char :=
  if 'A' ≤ c ∧ c ≤ 'Z' then Char.ofNat (c.toNat + 32) else c

/-! ## URL model

`new URL` is modelled for the ordinary `scheme://[user[:pass]@]host[:port]
[/path][?query][#frag]` shape that this code base feeds it; inputs outside
that shape parse to `none`, which both `isValidUrl` (via its catch) and
`sanitizeUrl` (returns input unchanged) treat exactly as a parse failure. -/

structure URLRec where
  protocol : String
  username : String
  password : String
  hostname : String
  port : String
  pathname : String
  search : String
  hash : String
deriving DecidableEq, Repr

/-- Characters allowed after the first character of a scheme. -/
def isSchemeTailChar (c : Char) : Bool :=
  c.isAlphanum || c == '+' || c == '-' || c == '.'

/-- Parse `user:pass@host:port` (the authority component). -/
def parseAuthority (auth : List Char) : Option (String × String × String × String) :=
  let uiHp :=
    match splitLast '@' auth with
    | some p => p
    | none => ([], auth)
  let userPass :=
    match splitFirst ':' uiHp.1 with
    | some p => p
    | none => (uiHp.1, [])
  let hostPort :=
    match splitLast ':' uiHp.2 with
    | some p => if p.2.all Char.isDigit then some p else none
    | none => some (uiHp.2, [])
  match hostPort with
  | none => none
  | some hp =>
    if hp.1.isEmpty then none
    else
      some (String.mk userPass.1, String.mk userPass.2,
            String.mk (hp.1.map toLowerChar), String.mk hp.2)

def parseURLChars (l : List Char) : Option URLRec :=
  match splitFirst ':' l with
  | none => none
  | some sr =>
    let scheme := sr.1
    if scheme.isEmpty then none
    else if !(match scheme with | c :: _ => c.isAlpha | [] => false) then none
    else if !(scheme.all isSchemeTailChar) then none
    else
      match sr.2 with
      | '/' :: '/' :: rest2 =>
        let notAuthEnd : Char → Bool := fun c => !(c == '/' || c == '?' || c == '#')
        let auth := rest2.takeWhile notAuthEnd
        let tail1 := rest2.dropWhile notAuthEnd
        match parseAuthority auth with
        | none => none
        | some uphp =>
          let notQ : Char → Bool := fun c => !(c == '?' || c == '#')
          let path := tail1.takeWhile notQ
          let tail2 := tail1.dropWhile notQ
          let query := tail2.takeWhile (fun c => !(c == '#'))
          let frag := tail2.dropWhile (fun c => !(c == '#'))
          some { protocol := String.mk (scheme.map toLowerChar) ++ ":"
                 username := uphp.1
                 password := uphp.2.1
                 hostname := uphp.2.2.1
                 port := uphp.2.2.2
                 pathname := if path.isEmpty then "/" else String.mk path
                 search := if query = ['?'] then "" else String.mk query
                 hash := if frag = ['#'] then "" else String.mk frag }
      | _ => none

/-- Model of `new URL(s)` (`none` models the constructor throwing). -/
def parseURL (s : String) : Option URLRec :=
  parseURLChars s.data

/-- `url.toString()` for the model above. -/
def serializeURL (u : URLRec) : String :=
  u.protocol ++ "//" ++
  (if u.username = "" ∧ u.password = "" then ""
   else u.username ++ (if u.password = "" then "" else ":" ++ u.password) ++ "@") ++
  u.hostname ++ (if u.port = "" then "" else ":" ++ u.port) ++
  u.pathname ++ u.search ++ u.hash

/-! ## Security filter (security.ts) -/

def FORBIDDEN_IP_RANGES : List String :=
  ["127.0.0.0/8", "10.0.0.0/8", "172.16.0.0/12", "192.168.0.0/16",
   "169.254.0.0/16", "0.0.0.0/8", "100.64.0.0/10", "192.0.0.0/24",
   "192.0.2.0/24", "198.51.100.0/24", "203.0.113.0/24", "224.0.0.0/4",
   "240.0.0.0/4", "255.255.255.255/32"]

def FORBIDDEN_HOSTNAMES : List String :=
  ["metadata.google.internal", "169.254.169.254", "169.254.169.123",
   "metadata", "metadata.internal"]

def ALLOWED_PROTOCOLS : List String := ["https:"]

/-- `(octets[0] << 24) + (octets[1] << 16) + (octets[2] << 8) + octets[3]`
with JS 32-bit shifts and plain number addition. -/
def ipv4ToInt (a b c d : Nat) : Int :=
  jsShl a 24 + jsShl b 16 + jsShl c 8 + Int.ofNat d

/-- `isIPInRange(ipInt, range)` from security.ts. -/
def isIPInRange (ipInt : Int) (range : String) : Bool :=
  match splitFirst '/' range.data with
  | none => false
  | some pr =>
    match parseIntAll pr.2 with
    | none => false
    | some prefixLength =>
      if prefixLength > 32 then false
      else
        match parseOctets4 (String.mk pr.1) with
        | none => false
        | some o =>
          let rangeIPInt := ipv4ToInt o.1 o.2.1 o.2.2.1 o.2.2.2
          let mask := jsNot (jsShl 1 (32 - prefixLength) - 1)
          jsAnd ipInt mask == jsAnd rangeIPInt mask

/-- `isForbiddenIP(ip)` from security.ts. -/
def isForbiddenIP (ip : String) : Bool :=
  match parseOctets4 ip with
  | none => false
  | some o =>
    if o.1 > 255 || o.2.1 > 255 || o.2.2.1 > 255 || o.2.2.2 > 255 then true
    else
      let ipInt := ipv4ToInt o.1 o.2.1 o.2.2.1 o.2.2.2
      FORBIDDEN_IP_RANGES.any (fun range => isIPInRange ipInt range)

/-- `isValidUrl` from security.ts, over a parsed URL (the function reads
only `url.protocol` and `url.hostname`). -/
def isValidUrl (url : URLRec) : Bool :=
  if url.protocol ∉ ALLOWED_PROTOCOLS then false
  else if url.hostname ∈ FORBIDDEN_HOSTNAMES then false
  else if isForbiddenIP url.hostname then false
  else true

/-- `isValidUrl` on a raw string: `new URL` throwing lands in the catch,
which returns false. -/
def isValidUrlString (s : String) : Bool :=
  match parseURL s with
  | some url => isValidUrl url
  | none => false

/-- `sanitizeUrl` from security.ts: strip userinfo and fragment; on parse
failure return the input unchanged. -/
def sanitizeUrl (urlString : String) : String :=
  match parseURL urlString with
  | some u => serializeURL { u with username := "", password := "", hash := "" }
  | none => urlString

/-! ## Error taxonomy (errors.ts) -/

inductive WebSearchErrorCode where
  | INVALID_PARAMETERS
  | API_ERROR
  | NETWORK_ERROR
  | RATE_LIMIT_EXCEEDED
  | QUOTA_EXCEEDED
  | SECURITY_ERROR
  | TIMEOUT_ERROR
  | INVALID_RESPONSE
  | CACHE_ERROR
deriving DecidableEq, Repr

/-- A thrown JavaScript value: either a plain `new Error(msg)` or a
structured `WebSearchError` built by `createWebSearchError`. -/
inductive JsError where
  | plain (msg : String)
  | ws (code : WebSearchErrorCode) (msg : String) (hint : Option String)
deriving DecidableEq, Repr

/-- The structured error code of a thrown value, when it has one. -/
def JsError.code? : JsError → Option WebSearchErrorCode
  | .plain _ => none
  | .ws c _ _ => some c

/-! ## RateLimiter (rate-limiter.ts) -/

structure RateLimiter where
  requests : List Int
  limit : Nat
  windowMs : Int
deriving DecidableEq, Repr

/-- `this.requests = this.requests.filter(t => now - t < this.windowMs)`. -/
def RateLimiter.prune (rl : RateLimiter) (now : Int) : RateLimiter :=
  { rl with requests := rl.requests.filter (fun t => now - t < rl.windowMs) }

/-- `checkLimit()`: prune, then allowed iff remaining count < limit.
Returns the answer together with the mutated limiter. -/
def RateLimiter.checkLimit (rl : RateLimiter) (now : Int) : Bool × RateLimiter :=
  let pruned := rl.prune now
  (decide (pruned.requests.length < rl.limit), pruned)

/-- `increment()`: `this.requests.push(Date.now())`. -/
def RateLimiter.increment (rl : RateLimiter) (now : Int) : RateLimiter :=
  { rl with requests := rl.requests ++ [now] }

/-- A sequence of guarded calls, each doing `checkLimit` then (when
admitted) `increment` at the given instant; `true` iff every
`checkLimit` in the sequence returned `true`. -/
def runCalls (rl : RateLimiter) : List Int → Bool
  | [] => true
  | t :: ts =>
    if (rl.checkLimit t).1 then runCalls ((rl.checkLimit t).2.increment t) ts
    else false

/-! ## Cache (cache.ts) -/

structure CacheEntry (α : Type) where
  data : α
  timestamp : Int
  ttl : Int
deriving DecidableEq, Repr

structure Cache (α : Type) where
  entries : String → Option (CacheEntry α)
  defaultTtl : Int

/-- `get(key)`: lazy expiry on read — an entry older than its ttl is
deleted and `null` returned.  Returns the value and the mutated cache. -/
def Cache.get {α : Type} (c : Cache α) (key : String) (now : Int) :
    Option α × Cache α :=
  match c.entries key with
  | none => (none, c)
  | some entry =>
    if now - entry.timestamp > entry.ttl then
      (none, { c with entries := fun k => if k = key then none else c.entries k })
    else
      (some entry.data, c)

/-- `set(key, data, ttl?)`: stores `{data, timestamp: now, ttl: ttl ||
this.defaultTtl}`, overwriting any prior entry for `key`. -/
def Cache.set {α : Type} (c : Cache α) (key : String) (data : α)
    (ttl : Option Int) (now : Int) : Cache α :=
  { c with entries := fun k =>
      if k = key then some ⟨data, now, jsOrNum ttl c.defaultTtl⟩
      else c.entries k }

/-! ## Search data model (types.ts / client.ts) -/

inductive TimeRange where
  | any | day | week | month | year
deriving DecidableEq, Repr

def TimeRange.toStr : TimeRange → String
  | .any => "any"
  | .day => "day"
  | .week => "week"
  | .month => "month"
  | .year => "year"

/-- `dedupe` parameter value: `'none' | 'domain' | 'title'`. -/
inductive DedupeChoice where
  | dnone | domain | title
deriving DecidableEq, Repr

def DedupeChoice.toStr : DedupeChoice → String
  | .dnone => "none"
  | .domain => "domain"
  | .title => "title"

/-- The strategy argument of `deduplicateResults`: `'domain' | 'title'`. -/
inductive DedupeStrategy where
  | domain | title
deriving DecidableEq, Repr

structure SearchResult where
  title : String
  url : String
  snippet : String
  published_at : Option String := none
  source : Option String := none
  score : Option Int := none
deriving DecidableEq, Repr

structure SearchMeta where
  query : String
  top_k : Int
  time_range : TimeRange
  cost_estimate : Rat
  cache_hit : Bool
  response_time : Int
deriving DecidableEq, Repr

structure SearchWebResult where
  results : List SearchResult
  meta : SearchMeta
  clusters : Option (List String) := none
  highlights : Option (List String) := none
  citations : Option (List SearchResult) := none
deriving DecidableEq, Repr

def boolToStr (b : Bool) : String := if b then "true" else "false"

structure SearchWebParams where
  q : String
  top_k : Option Int := none
  time_range : Option TimeRange := none
  site : Option String := none
  lang : Option String := none
  region : Option String := none
  safe_mode : Option Bool := none
  include_snippets : Option Bool := none
  operators : Option (List String) := none
  exclude_sites : Option (List String) := none
  from_ : Option String := none
  to_ : Option String := none
  dedupe : Option DedupeChoice := none
  aggregate : Option Bool := none
deriving DecidableEq, Repr

/-- `createCacheKey` from client.ts: the literal field list, `undefined`
entries filtered out, joined by `'|'` (numbers and booleans serialized the
JS way), with joined `operators` and `exclude_sites` appended when the
arrays are present. -/
def createCacheKey (params : SearchWebParams) : String :=
  let keyParts : List (Option String) :=
    [some params.q,
     params.top_k.map (fun n => toString n),
     params.time_range.map TimeRange.toStr,
     params.site, params.lang, params.region,
     params.safe_mode.map boolToStr,
     params.include_snippets.map boolToStr,
     params.from_, params.to_,
     params.dedupe.map DedupeChoice.toStr]
  let keyParts := keyParts ++
    (match params.operators with
     | some ops => [some (String.intercalate "," ops)]
     | none => [])
  let keyParts := keyParts ++
    (match params.exclude_sites with
     | some es => [some (String.intercalate "," es)]
     | none => [])
  String.intercalate "|" (keyParts.filterMap id)

/-- `calculateCost(resultCount)`: `resultCount * 0.0001`. -/
def calculateCost (resultCount : Nat) : Rat :=
  (resultCount : Rat) * (1 / 10000)

/-- One raw result object from the upstream search API. -/
structure RawSearchItem where
  title : Option String := none
  url : Option String := none
  snippet : Option String := none
  published_at : Option String := none
  source : Option String := none
  score : Option Int := none
deriving DecidableEq, Repr

structure RawSearchResponse where
  results : List RawSearchItem
deriving DecidableEq, Repr

/-- `normalizeResults` from client.ts: coerce fields, then keep only
results with nonempty title and url whose url passes `isValidUrl`. -/
def normalizeResults (results : List RawSearchItem) : List SearchResult :=
  (results.map fun r =>
    { title := jsOrStr r.title ""
      url :=
        match r.url with
        | some u => jsOrStr (some (sanitizeUrl u)) ""
        | none => ""
      snippet := jsOrStr r.snippet ""
      published_at := jsStrFalsyToNone r.published_at
      source := jsStrFalsyToNone r.source
      score := jsNumFalsyToNone r.score : SearchResult }
  ).filter fun r => !(r.title == "") && !(r.url == "") && isValidUrlString r.url

/-- The dedup key of one result: parsed hostname (falling back to the raw
url string when `new URL` throws) for the domain strategy, exact title
for the title strategy. -/
def dedupKey (strategy : DedupeStrategy) (r : SearchResult) : String :=
  match strategy with
  | .domain =>
    match parseURL r.url with
    | some u => u.hostname
    | none => r.url
  | .title => r.title

/-- The stateful `seen`-set filter inside `deduplicateResults`. -/
def dedupGo (strategy : DedupeStrategy) (seen : List String) :
    List SearchResult → List SearchResult
  | [] => []
  | r :: rs =>
    if dedupKey strategy r ∈ seen then dedupGo strategy seen rs
    else r :: dedupGo strategy (dedupKey strategy r :: seen) rs

/-- `deduplicateResults` from client.ts. -/
def deduplicateResults (results : List SearchResult)
    (strategy : DedupeStrategy) : List SearchResult :=
  dedupGo strategy [] results

/-! ## searchWeb orchestration (client.ts)

Effects are made explicit: the shared cache and rate limiter are threaded
as state, `Date.now()` is the `now` field of the state, the outcome of the
(retried, timed-out) upstream request is an oracle argument, and the
externally visible actions are reported as an ordered event list. -/

/-- The environment variables the client reads. -/
structure Env where
  PERPLEXITY_API_KEY : Option String
deriving DecidableEq, Repr

/-- Externally visible actions of one call, in order. -/
inductive Event where
  | cacheRead
  | netSearch
  | cacheWrite
  | limiterInc
  | netSonar
deriving DecidableEq, Repr

/-- The process-wide mutable state shared by all calls. -/
structure WebState where
  cache : Cache SearchWebResult
  limiter : RateLimiter
  now : Int

/-- `searchWeb(params)` from client.ts.  `net` is the outcome of
`makePerplexityRequest` (after its internal retry/timeout handling);
`elapsed` is the wall-clock time that request took.  The request payload
itself is not modelled: the oracle stands for the whole network exchange. -/
def searchWeb (params : SearchWebParams) (st : WebState) (env : Env)
    (net : Except JsError RawSearchResponse) (elapsed : Int) :
    Except JsError SearchWebResult × WebState × List Event :=
  let check := st.limiter.checkLimit st.now
  if check.1 = false then
    (.error (.plain "Rate limit exceeded. Please try again later."),
     ⟨st.cache, check.2, st.now⟩, [])
  else
    let cacheKey := createCacheKey params
    let got := st.cache.get cacheKey st.now
    match got.1 with
    | some cachedResult =>
      (.ok { cachedResult with meta := { cachedResult.meta with cache_hit := true } },
       ⟨got.2, check.2, st.now⟩, [Event.cacheRead])
    | none =>
      match env.PERPLEXITY_API_KEY with
      | none =>
        (.error (.plain "PERPLEXITY_API_KEY is not configured"),
         ⟨got.2, check.2, st.now⟩, [Event.cacheRead])
      | some _ =>
        match net with
        | .error e =>
          (.error e, ⟨got.2, check.2, st.now + elapsed⟩,
           [Event.cacheRead, Event.netSearch])
        | .ok response =>
          let normalizedResults := normalizeResults response.results
          let finalResults :=
            match params.dedupe with
            | some DedupeChoice.domain =>
              deduplicateResults normalizedResults DedupeStrategy.domain
            | some DedupeChoice.title =>
              deduplicateResults normalizedResults DedupeStrategy.title
            | some DedupeChoice.dnone => normalizedResults
            | none => normalizedResults
          let result : SearchWebResult :=
            { results := finalResults
              meta :=
                { query := params.q
                  top_k := jsOrNum params.top_k 10
                  time_range := params.time_range.getD TimeRange.any
                  cost_estimate := calculateCost normalizedResults.length
                  cache_hit := false
                  response_time := elapsed }
              clusters := none
              highlights := none
              citations := none }
          (.ok result,
           ⟨got.2.set cacheKey result none (st.now + elapsed),
            check.2.increment (st.now + elapsed), st.now + elapsed⟩,
           [Event.cacheRead, Event.netSearch, Event.cacheWrite, Event.limiterInc])

/-! ## Sonar answer escalation (sonar-client.ts) -/

inductive SonarModel where
  | sonar | sonarPro | sonarReasoning | sonarReasoningPro | sonarDeepResearch
deriving DecidableEq, Repr

structure SonarSearchParams extends SearchWebParams where
  sonar_model : Option SonarModel := none
deriving DecidableEq, Repr

/-- `calculateSonarCost(model, evidenceCount)`: a per-model base constant
plus `evidenceCount * 0.001`. -/
def calculateSonarCost (model : SonarModel) (evidenceCount : Nat) : Rat :=
  let baseCost : Rat :=
    match model with
    | .sonarPro => 2 / 100
    | .sonarReasoning => 3 / 100
    | .sonarReasoningPro => 4 / 100
    | .sonarDeepResearch => 5 / 100
    | .sonar => 1 / 100
  baseCost + (evidenceCount : Rat) * (1 / 1000)

/-- One entry of a raw `highlights` array (only strings survive the
`typeof h === 'string'` filter). -/
inductive SonarHighlightEntry where
  | str (s : String)
  | other
deriving DecidableEq, Repr

structure SonarRawCitation where
  title : Option String := none
  url : Option String := none
  snippet : Option String := none
deriving DecidableEq, Repr

structure SonarChoiceMessage where
  content : Option String := none
deriving DecidableEq, Repr

/-- One entry of a raw `choices` array. -/
inductive SonarChoice where
  | msg (m : Option SonarChoiceMessage)
  | strChoice (s : String)
  | other
deriving DecidableEq, Repr

/-- The raw Sonar API response body.  An absent (`none`) list field models
a missing or non-array JSON field; opaque cluster payloads are carried as
strings since the code never inspects them. -/
structure SonarRaw where
  choices : Option (List SonarChoice) := none
  answer : Option String := none
  citations : Option (List SonarRawCitation) := none
  highlights : Option (List SonarHighlightEntry) := none
  clusters : Option (List String) := none
deriving DecidableEq, Repr

/-- The canonical shape `normalizeSonarResults` produces; every field is
always an array (hence truthy in JS). -/
structure SonarNormalized where
  answer : String
  clusters : List String
  highlights : List String
  citations : List SearchResult
deriving DecidableEq, Repr

/-- The `answer` extraction branch of `normalizeSonarResults`. -/
def extractAnswer (r : SonarRaw) : String :=
  match r.choices with
  | some (choice :: _) =>
    (match choice with
     | .msg m =>
       (match m with
        | some msgObj =>
          (match msgObj.content with
           | some s => if s = "" then "" else s
           | none => "")
        | none => "")
     | .strChoice s => s
     | .other => "")
  | some [] => jsOrStr r.answer ""
  | none => jsOrStr r.answer ""

/-- `normalizeSonarResults` from sonar-client.ts (`none` input models a
falsy response body). -/
def normalizeSonarResults (sonarResult : Option SonarRaw) : SonarNormalized :=
  match sonarResult with
  | none => ⟨"", [], [], []⟩
  | some r =>
    { answer := extractAnswer r
      clusters :=
        match r.clusters with
        | some cs => cs
        | none => []
      highlights :=
        match r.highlights with
        | some hs => hs.filterMap fun h =>
            match h with
            | .str s => some s
            | .other => none
        | none => []
      citations :=
        match r.citations with
        | some cs => cs.map fun c =>
            { title := jsOrStr c.title ""
              url := jsOrStr c.url ""
              snippet := jsOrStr c.snippet "" }
        | none => [] }

/-- `generateAnswerWithSonar(params)` from sonar-client.ts.  `searchNet`
and `searchElapsed` drive the inner `searchWeb` evidence call; `sonarNet`
is the outcome of `makeSonarRequest` (an `Option SonarRaw` body, `none`
modelling a falsy body) and `sonarElapsed` its wall-clock time.

The three `||` fallbacks on `normalizedResults.clusters`, `.highlights`
and `.citations` in the source never fire: `normalizeSonarResults` always
returns arrays, and a JS array — even an empty one — is truthy.  The
embedding therefore uses the normalized fields directly. -/
def generateAnswerWithSonar (params : SonarSearchParams) (st : WebState)
    (env : Env) (searchNet : Except JsError RawSearchResponse)
    (searchElapsed : Int) (sonarNet : Except JsError (Option SonarRaw))
    (sonarElapsed : Int) :
    Except JsError SearchWebResult × WebState × List Event :=
  let sout := searchWeb params.toSearchWebParams st env searchNet searchElapsed
  match sout.1 with
  | .error e => (.error e, sout.2.1, sout.2.2)
  | .ok searchResults =>
    match env.PERPLEXITY_API_KEY with
    | none =>
      (.error (.plain "PERPLEXITY_API_KEY is not configured"),
       sout.2.1, sout.2.2)
    | some _ =>
      match params.sonar_model with
      | none =>
        (.error (.plain "Sonar model is required for sonar_answer engine"),
         sout.2.1, sout.2.2)
      | some model =>
        match sonarNet with
        | .error e => (.error e, sout.2.1, sout.2.2 ++ [Event.netSonar])
        | .ok sonarResult =>
          let normalizedResults := normalizeSonarResults sonarResult
          let result : SearchWebResult :=
            { results := searchResults.results
              meta :=
                { query := params.q
                  top_k := jsOrNum params.top_k 10
                  time_range := params.time_range.getD TimeRange.any
                  cost_estimate :=
                    calculateSonarCost model searchResults.results.length
                  cache_hit := false
                  response_time := searchResults.meta.response_time + sonarElapsed }
              clusters := some normalizedResults.clusters
              highlights := some normalizedResults.highlights
              citations := some normalizedResults.citations }
          (.ok result, sout.2.1, sout.2.2 ++ [Event.netSonar])

/-- The `citations` field of a call outcome, when the call succeeded. -/
def resultCitations : Except JsError SearchWebResult → Option (List SearchResult)
  | .ok r => r.citations
  | .error _ => none

/-- The `results` field of a call outcome, when the call succeeded. -/
def resultResults : Except JsError SearchWebResult → Option (List SearchResult)
  | .ok r => some r.results
  | .error _ => none

instance {ε α : Type} [DecidableEq ε] [DecidableEq α] : DecidableEq (Except ε α) :=
  fun a b =>
    match a, b with
    | .ok x, .ok y =>
      if h : x = y then .isTrue (by rw [h]) else .isFalse (by simp [h])
    | .error x, .error y =>
      if h : x = y then .isTrue (by rw [h]) else .isFalse (by simp [h])
    | .ok _, .error _ => .isFalse (by simp)
    | .error _, .ok _ => .isFalse (by simp)

/-! ## Concrete inputs used to instantiate the theorems below -/

/-- An environment with the API key configured. -/
def envK : Env := ⟨some "key"⟩

/-- An environment without the API key. -/
def envNone : Env := ⟨none⟩

/-- A fresh state: empty cache, empty rate window. -/
def stEmpty : WebState := ⟨⟨fun _ => none, 1800000⟩, ⟨[], 5, 1000⟩, 0⟩

/-- A state whose rate window is already at the limit. -/
def stFullWindow : WebState := ⟨⟨fun _ => none, 1800000⟩, ⟨[0, 0, 0, 0, 0], 5, 1000⟩, 0⟩

/-- An empty cache over strings. -/
def cacheC7 : Cache String := ⟨fun _ => none, 1800000⟩

/-- A cached response for the query "w". -/
def res4 : SearchWebResult :=
  ⟨[], ⟨"w", 10, TimeRange.any, 0, false, 3⟩, none, none, none⟩

/-- A state holding `res4` live in the cache under key "w". -/
def st4 : WebState :=
  ⟨⟨fun k => if k = "w" then some ⟨res4, 0, 1000⟩ else none, 1800000⟩,
   ⟨[], 5, 1000⟩, 5⟩

/-- Sonar parameters with no `sonar_model`. -/
def pC1 : SonarSearchParams := { q := "x" }

/-- Sonar parameters selecting the base model. -/
def pC2 : SonarSearchParams := { q := "rust", sonar_model := some SonarModel.sonar }

/-- A raw search response with one valid result. -/
def rawC2 : RawSearchResponse :=
  ⟨[{ title := some "T", url := some "https://example.com/path", snippet := some "S" }]⟩

/-- The normalization of the single result of `rawC2`. -/
def evidenceC2 : SearchResult := ⟨"T", "https://example.com/path", "S", none, none, none⟩

/-- A Sonar response body that carries an answer but no citations array. -/
def sonarNoCitations : SonarRaw := { answer := some "An answer" }

/-! ## Helper lemmas -/

theorem checkLimit_snd_requests (rl : RateLimiter) (now : Int) :
    (rl.checkLimit now).2.requests = rl.requests.filter (fun t => now - t < rl.windowMs) := rfl

theorem foldl_increment (ts : List Int) : ∀ (rl : RateLimiter),
    ts.foldl (fun r t => r.increment t) rl = ⟨rl.requests ++ ts, rl.limit, rl.windowMs⟩ := by
  induction ts with
  | nil => intro rl; simp
  | cons t ts ih =>
    intro rl
    simp only [List.foldl_cons]
    rw [ih]
    simp [RateLimiter.increment]

theorem runCalls_ok (ts : List Int) : ∀ (rl : RateLimiter),
    rl.requests.length + ts.length ≤ rl.limit → runCalls rl ts = true := by
  induction ts with
  | nil => intro rl _; rfl
  | cons t ts ih =>
    intro rl h
    unfold runCalls
    have h1 : (rl.requests.filter (fun x => t - x < rl.windowMs)).length
        ≤ rl.requests.length := List.length_filter_le _ _
    have hlt : (rl.requests.filter (fun x => t - x < rl.windowMs)).length < rl.limit := by
      simp only [List.length_cons] at h
      omega
    have hc : (rl.checkLimit t).1 = true := by
      simp only [RateLimiter.checkLimit, RateLimiter.prune]
      exact decide_eq_true hlt
    rw [hc]
    simp only [if_true]
    apply ih
    simp only [RateLimiter.checkLimit, RateLimiter.prune, RateLimiter.increment,
      List.length_append, List.length_singleton]
    simp only [List.length_cons] at h
    omega

theorem dedupGo_sublist (strategy : DedupeStrategy) (seen : List String)
    (l : List SearchResult) : (dedupGo strategy seen l).Sublist l := by
  induction l generalizing seen with
  | nil => simp [dedupGo]
  | cons r rs ih =>
    unfold dedupGo
    split
    · exact (ih seen).cons r
    · exact (ih _).cons₂ r

theorem dedupGo_keys (strategy : DedupeStrategy) (seen : List String)
    (l : List SearchResult) :
    (∀ k ∈ (dedupGo strategy seen l).map (dedupKey strategy), k ∉ seen)
    ∧ ((dedupGo strategy seen l).map (dedupKey strategy)).Nodup := by
  induction l generalizing seen with
  | nil => simp [dedupGo]
  | cons r rs ih =>
    unfold dedupGo
    split
    · exact ih seen
    · rename_i h
      constructor
      · intro k hk
        simp only [List.map_cons, List.mem_cons] at hk
        rcases hk with rfl | hk
        · exact h
        · exact fun hs => (ih _).1 k hk (List.mem_cons_of_mem _ hs)
      · simp only [List.map_cons, List.nodup_cons]
        exact ⟨fun hmem => (ih _).1 _ hmem (List.mem_cons_self _ _), (ih _).2⟩

theorem dedupGo_eq_self (strategy : DedupeStrategy) (l : List SearchResult) :
    ∀ (seen : List String),
    (l.map (dedupKey strategy)).Nodup →
    (∀ k ∈ l.map (dedupKey strategy), k ∉ seen) →
    dedupGo strategy seen l = l := by
  induction l with
  | nil => intro seen _ _; rfl
  | cons r rs ih =>
    intro seen hnd hdis
    have hnd' : dedupKey strategy r ∉ rs.map (dedupKey strategy)
        ∧ (rs.map (dedupKey strategy)).Nodup := by
      rw [List.map_cons, List.nodup_cons] at hnd
      exact hnd
    unfold dedupGo
    rw [if_neg (hdis _ (by simp))]
    congr 1
    apply ih _ hnd'.2
    intro k hk hmem
    rcases List.mem_cons.mp hmem with rfl | hks
    · exact hnd'.1 hk
    · exact hdis k (by simp [hk]) hks

theorem dedupGo_filter (strategy : DedupeStrategy) (k : String) :
    ∀ (l : List SearchResult) (seen : List String),
      (dedupGo strategy seen l).filter (fun r => dedupKey strategy r = k)
      = if k ∈ seen then []
        else (l.filter (fun r => dedupKey strategy r = k)).take 1 := by
  intro l
  induction l with
  | nil =>
    intro seen
    by_cases hs : k ∈ seen <;> simp [dedupGo, hs]
  | cons r rs ih =>
    intro seen
    unfold dedupGo
    by_cases hr : dedupKey strategy r ∈ seen
    · rw [if_pos hr, ih seen]
      by_cases hs : k ∈ seen
      · simp [hs]
      · have hne : ¬(dedupKey strategy r = k) := fun he => hs (he ▸ hr)
        simp [hs, List.filter_cons, hne]
    · rw [if_neg hr]
      by_cases hs : k ∈ seen
      · have hne : ¬(dedupKey strategy r = k) := fun he => hr (he ▸ hs)
        rw [List.filter_cons, if_neg (by simpa using hne), ih _]
        simp [hs, hne]
      · by_cases hrk : dedupKey strategy r = k
        · rw [List.filter_cons, if_pos (by simpa using hrk), ih _]
          rw [if_pos (by simp [hrk])]
          simp [hs, List.filter_cons, hrk]
        · rw [List.filter_cons, if_neg (by simpa using hrk), ih _]
          have hnotin : k ∉ dedupKey strategy r :: seen := by
            simp only [List.mem_cons, not_or]
            exact ⟨fun he => hrk he.symm, hs⟩
          rw [if_neg hnotin, if_neg hs]
          simp [List.filter_cons, hrk]

theorem Cache.get_entries_or {α : Type} (c : Cache α) (key k : String) (now : Int) :
    (c.get key now).2.entries k = c.entries k ∨ (c.get key now).2.entries k = none := by
  unfold Cache.get
  split
  · exact Or.inl rfl
  · split
    · by_cases hk : k = key
      · exact Or.inr (by simp [hk])
      · exact Or.inl (by simp [hk])
    · exact Or.inl rfl

theorem searchWeb_no_netSonar (params : SearchWebParams) (st : WebState) (env : Env)
    (net : Except JsError RawSearchResponse) (elapsed : Int) :
    Event.netSonar ∉ (searchWeb params st env net elapsed).2.2 := by
  simp only [searchWeb]
  split
  · simp
  · split
    · simp
    · split
      · simp
      · split
        · simp
        · simp

/-! ## Claim theorems -/

/-- C5: `checkLimit()` first discards every recorded timestamp older than
`windowMs` relative to the current time and then returns true iff the
number of remaining timestamps is strictly below `limit`; consequently a
sequence of fewer than `limit` accepted-and-incremented calls starting
from an empty window is admitted at every step, and once `limit`
increments have landed inside the current window the next `checkLimit`
returns false. -/
theorem C5_rate_limit (rl : RateLimiter) (now : Int) (ts calls : List Int)
    (h1 : calls.length < rl.limit) (h2 : rl.requests = [])
    (h3 : ts.length = rl.limit)
    (h4 : ∀ t ∈ ts, now - t < rl.windowMs) :
    ((rl.checkLimit now).2.requests = rl.requests.filter (fun t => now - t < rl.windowMs)
      ∧ ((rl.checkLimit now).1 = true ↔
          (rl.requests.filter (fun t => now - t < rl.windowMs)).length < rl.limit))
    ∧ runCalls rl calls = true
    ∧ ((ts.foldl (fun (r : RateLimiter) t => r.increment t)
          (⟨[], rl.limit, rl.windowMs⟩ : RateLimiter)).checkLimit now).1 = false := by
  refine ⟨⟨rfl, ?_⟩, ?_, ?_⟩
  · simp [RateLimiter.checkLimit, RateLimiter.prune]
  · apply runCalls_ok calls rl
    rw [h2]
    simpa using Nat.le_of_lt h1
  · rw [foldl_increment]
    have hf : ts.filter (fun t => decide (now - t < rl.windowMs)) = ts :=
      List.filter_eq_self.mpr (fun a ha => decide_eq_true (h4 a ha))
    simp only [RateLimiter.checkLimit, RateLimiter.prune, List.nil_append, hf, h3]
    exact decide_eq_false (lt_irrefl _)

/-- C5 witness: concrete instantiation with limit 2 and window 1000. -/
theorem C5_rate_limit_witness :
    ((((⟨[], 2, 1000⟩ : RateLimiter)).checkLimit 0).2.requests
        = ([] : List Int).filter (fun t => (0 : Int) - t < 1000)
      ∧ ((((⟨[], 2, 1000⟩ : RateLimiter)).checkLimit 0).1 = true ↔
          (([] : List Int).filter (fun t => (0 : Int) - t < 1000)).length < 2))
    ∧ runCalls ⟨[], 2, 1000⟩ [5] = true
    ∧ ((([0, 0] : List Int).foldl (fun (r : RateLimiter) t => r.increment t)
          (⟨[], 2, 1000⟩ : RateLimiter)).checkLimit 0).1 = false :=
  C5_rate_limit ⟨[], 2, 1000⟩ 0 [0, 0] [5] (by decide) rfl (by decide) (by decide)

/-- C6: `isValidUrl` rejects every URL whose hostname is `127.0.0.1`,
`169.254.169.254`, `10.0.0.5` or `metadata.google.internal`, whatever the
rest of the URL; accepts `https://example.com/path`; and rejects every URL
whose scheme is not `https:`. -/
theorem C6_security (u v : URLRec)
    (h : u.hostname = "127.0.0.1" ∨ u.hostname = "169.254.169.254" ∨
         u.hostname = "10.0.0.5" ∨ u.hostname = "metadata.google.internal")
    (hv : v.protocol ≠ "https:") :
    isValidUrl u = false
    ∧ isValidUrlString "https://example.com/path" = true
    ∧ isValidUrl v = false := by
  refine ⟨?_, by decide, ?_⟩
  · rcases h with h | h | h | h <;>
      (unfold isValidUrl
       rw [h]
       by_cases hp : u.protocol ∈ ALLOWED_PROTOCOLS
       · rw [if_neg (not_not_intro hp)]
         decide
       · rw [if_pos hp])
  · unfold isValidUrl
    rw [if_pos (by simpa [ALLOWED_PROTOCOLS] using hv)]

/-- C6 witness: forbidden loopback host, the accepted example URL, and a
non-https scheme. -/
theorem C6_security_witness :
    isValidUrl ⟨"https:", "", "", "127.0.0.1", "", "/", "", ""⟩ = false
    ∧ isValidUrlString "https://example.com/path" = true
    ∧ isValidUrl ⟨"http:", "", "", "example.com", "", "/", "", ""⟩ = false :=
  C6_security ⟨"https:", "", "", "127.0.0.1", "", "/", "", ""⟩
    ⟨"http:", "", "", "example.com", "", "/", "", ""⟩ (Or.inl rfl) (by decide)

/-- C7 counterexample: the claim says an explicitly supplied ttl of 0 is
stored as given; but `Cache.set` uses JS `ttl || defaultTtl`, and 0 is
falsy, so the stored ttl is the default (1800000), not 0. -/
theorem C7_claim_counterexample :
    (cacheC7.set "k" "d" (some 0) 100).entries "k" = some ⟨"d", 100, 1800000⟩
    ∧ (1800000 : Int) ≠ 0 := by
  constructor
  · decide
  · decide

/-- C7 (amended): `Cache.set` stores `{data, timestamp: now, ttl: ttl ||
defaultTtl}` — a supplied ttl of 0 falls back to `defaultTtl` just like an
absent one, a nonzero supplied ttl is stored as given — and any prior
entry under the same key is overwritten wholesale while other keys are
untouched. -/
theorem C7_amended {α : Type} (c : Cache α) (key : String) (d : α)
    (ttl : Option Int) (now : Int) :
    (c.set key d ttl now).entries key = some ⟨d, now, jsOrNum ttl c.defaultTtl⟩
    ∧ ∀ k, k ≠ key → (c.set key d ttl now).entries k = c.entries k := by
  constructor
  · simp [Cache.set]
  · intro k hk
    simp [Cache.set, hk]

/-- C7 witness: storing with ttl 0 at a concrete key. -/
theorem C7_amended_witness :
    (cacheC7.set "k" "d" (some 0) 100).entries "k"
      = some ⟨"d", 100, jsOrNum (some 0) cacheC7.defaultTtl⟩
    ∧ (cacheC7.set "k" "d" (some 0) 100).entries "other" = cacheC7.entries "other" :=
  ⟨(C7_amended cacheC7 "k" "d" (some 0) 100).1,
   (C7_amended cacheC7 "k" "d" (some 0) 100).2 "other" (by decide)⟩

/-- C9: `deduplicateResults` is idempotent for each strategy; its output
is a sublist of the input (first-seen order preserved), and for every
dedup key the output contains exactly the first input element with that
key. -/
theorem C9_dedup (strategy : DedupeStrategy) (l : List SearchResult) :
    deduplicateResults (deduplicateResults l strategy) strategy
      = deduplicateResults l strategy
    ∧ (deduplicateResults l strategy).Sublist l
    ∧ ∀ k : String,
        (deduplicateResults l strategy).filter (fun r => dedupKey strategy r = k)
          = (l.filter (fun r => dedupKey strategy r = k)).take 1 := by
  refine ⟨?_, dedupGo_sublist strategy [] l, ?_⟩
  · unfold deduplicateResults
    exact dedupGo_eq_self strategy _ [] (dedupGo_keys strategy [] l).2
      (fun k _ => List.not_mem_nil k)
  · intro k
    have h := dedupGo_filter strategy k l []
    simpa using h

/-- C10: `createCacheKey` is not injective across semantically different
parameter sets: omitting undefined fields from the '|'-joined key lets
`{q: "a", top_k: 5}` and `{q: "a", site: "5"}` collide on `"a|5"`. -/
theorem C10_cache_key_collision :
    createCacheKey { q := "a", top_k := some 5 }
      = createCacheKey { q := "a", site := some "5" }
    ∧ ({ q := "a", top_k := some 5 } : SearchWebParams)
      ≠ { q := "a", site := some "5" } := by
  constructor
  · decide
  · decide

/-- C3 counterexample: with a full rate window, `searchWeb` does throw
immediately, but the thrown value is a plain `Error` carrying only a
message — it has no structured `RATE_LIMIT_EXCEEDED` code (the claim says
the error's code is `RATE_LIMIT_EXCEEDED`). -/
theorem C3_claim_counterexample :
    (searchWeb { q := "x" } stFullWindow envK (.error (.plain "unused")) 0).1
      = .error (.plain "Rate limit exceeded. Please try again later.")
    ∧ JsError.code? (.plain "Rate limit exceeded. Please try again later.")
      ≠ some WebSearchErrorCode.RATE_LIMIT_EXCEEDED := by
  constructor
  · decide
  · decide

/-- C3 (amended): when the rate-limit check refuses admission, `searchWeb`
fails immediately with a plain error whose message is "Rate limit
exceeded. Please try again later." (not a coded `WebSearchError`), with no
waiting or queueing, before any cache read and before any network
activity, leaving the cache untouched and the rate window only pruned. -/
theorem C3_amended (params : SearchWebParams) (st : WebState) (env : Env)
    (net : Except JsError RawSearchResponse) (elapsed : Int)
    (h : (st.limiter.checkLimit st.now).1 = false) :
    searchWeb params st env net elapsed =
      (.error (.plain "Rate limit exceeded. Please try again later."),
       ⟨st.cache, (st.limiter.checkLimit st.now).2, st.now⟩, []) := by
  simp [searchWeb, h]

/-- C3 witness: the refusal at the concrete full-window state. -/
theorem C3_amended_witness :
    searchWeb { q := "x" } stFullWindow envK (.error (.plain "unused")) 0 =
      (.error (.plain "Rate limit exceeded. Please try again later."),
       ⟨stFullWindow.cache, (stFullWindow.limiter.checkLimit 0).2, 0⟩, []) :=
  C3_amended { q := "x" } stFullWindow envK (.error (.plain "unused")) 0 (by decide)

/-- C4: when the rate-limit check admits the call and the cache holds a
live entry for the call's key, `searchWeb` returns the cached response
with only `meta.cache_hit` forced true, the rate limiter's recorded
request count does not increase, and the only event is the cache read (no
network activity, no cache write, no increment). -/
theorem C4_cache_hit (params : SearchWebParams) (st : WebState) (env : Env)
    (net : Except JsError RawSearchResponse) (elapsed : Int)
    (cached : SearchWebResult)
    (hlim : (st.limiter.checkLimit st.now).1 = true)
    (hhit : (st.cache.get (createCacheKey params) st.now).1 = some cached) :
    (searchWeb params st env net elapsed).1 =
      .ok { cached with meta := { cached.meta with cache_hit := true } }
    ∧ (searchWeb params st env net elapsed).2.1.limiter.requests.length
        ≤ st.limiter.requests.length
    ∧ (searchWeb params st env net elapsed).2.2 = [Event.cacheRead] := by
  have hns : ¬((st.limiter.checkLimit st.now).1 = false) := by simp [hlim]
  refine ⟨?_, ?_, ?_⟩
  · simp only [searchWeb]
    rw [if_neg hns, hhit]
  · simp only [searchWeb]
    rw [if_neg hns, hhit]
    simp only [RateLimiter.checkLimit, RateLimiter.prune]
    exact List.length_filter_le _ _
  · simp only [searchWeb]
    rw [if_neg hns, hhit]

/-- C4 witness: a concrete state holding a live entry for query "w". -/
theorem C4_cache_hit_witness :
    (searchWeb { q := "w" } st4 envK (.error (.plain "unused")) 0).1 =
      .ok { res4 with meta := { res4.meta with cache_hit := true } }
    ∧ (searchWeb { q := "w" } st4 envK (.error (.plain "unused")) 0).2.1.limiter.requests.length
        ≤ st4.limiter.requests.length
    ∧ (searchWeb { q := "w" } st4 envK (.error (.plain "unused")) 0).2.2 = [Event.cacheRead] :=
  C4_cache_hit { q := "w" } st4 envK (.error (.plain "unused")) 0 res4
    (by decide) (by decide)

/-- C8: whenever `searchWeb` terminates with an error — rate-limit
refusal, missing API key, or a failed (retried) network call — no
timestamp is appended to the rate limiter (its request list is a sublist
of the old one, i.e. at most pruned) and every cache key either keeps its
old entry or has merely been expired, never written. -/
theorem C8_atomic_failure (params : SearchWebParams) (st : WebState) (env : Env)
    (net : Except JsError RawSearchResponse) (elapsed : Int) (err : JsError)
    (st' : WebState) (tr : List Event)
    (h : searchWeb params st env net elapsed = (.error err, st', tr)) :
    st'.limiter.requests.Sublist st.limiter.requests
    ∧ ∀ k, st'.cache.entries k = st.cache.entries k ∨ st'.cache.entries k = none := by
  simp only [searchWeb] at h
  split at h
  · simp only [Prod.mk.injEq] at h
    obtain ⟨he, hst, htr⟩ := h
    subst hst
    refine ⟨?_, fun k => Or.inl rfl⟩
    simp only [RateLimiter.checkLimit, RateLimiter.prune]
    exact List.filter_sublist _
  · split at h
    · simp only [Prod.mk.injEq] at h
      exact absurd h.1 (fun hh => Except.noConfusion hh)
    · split at h
      · simp only [Prod.mk.injEq] at h
        obtain ⟨he, hst, htr⟩ := h
        subst hst
        refine ⟨?_, fun k => Cache.get_entries_or st.cache (createCacheKey params) k st.now⟩
        simp only [RateLimiter.checkLimit, RateLimiter.prune]
        exact List.filter_sublist _
      · split at h
        · simp only [Prod.mk.injEq] at h
          obtain ⟨he, hst, htr⟩ := h
          subst hst
          refine ⟨?_, fun k => Cache.get_entries_or st.cache (createCacheKey params) k st.now⟩
          simp only [RateLimiter.checkLimit, RateLimiter.prune]
          exact List.filter_sublist _
        · simp only [Prod.mk.injEq] at h
          exact absurd h.1 (fun hh => Except.noConfusion hh)

/-- C8 witness: a concrete failing call (missing API key) leaves the state
as it was. -/
theorem C8_atomic_failure_witness :
    ((⟨stEmpty.cache, ⟨[], 5, 1000⟩, 0⟩ : WebState)).limiter.requests.Sublist
      stEmpty.limiter.requests
    ∧ ((⟨stEmpty.cache, ⟨[], 5, 1000⟩, 0⟩ : WebState).cache.entries "k"
          = stEmpty.cache.entries "k"
        ∨ (⟨stEmpty.cache, ⟨[], 5, 1000⟩, 0⟩ : WebState).cache.entries "k" = none) :=
  ⟨(C8_atomic_failure { q := "x" } stEmpty envNone (.error (.plain "e")) 0
      (.plain "PERPLEXITY_API_KEY is not configured")
      ⟨stEmpty.cache, ⟨[], 5, 1000⟩, 0⟩ [Event.cacheRead] rfl).1,
   (C8_atomic_failure { q := "x" } stEmpty envNone (.error (.plain "e")) 0
      (.plain "PERPLEXITY_API_KEY is not configured")
      ⟨stEmpty.cache, ⟨[], 5, 1000⟩, 0⟩ [Event.cacheRead] rfl).2 "k"⟩

/-- C1 counterexample: calling `generateAnswerWithSonar` without
`sonar_model` does reject, but only after the evidence search has been
issued — the trace of the rejected call contains the evidence-search
network event, refuting "rejects before any network activity". -/
theorem C1_claim_counterexample :
    (generateAnswerWithSonar pC1 stEmpty envK (.ok ⟨[]⟩) 5 (.ok none) 7).1
      = .error (.plain "Sonar model is required for sonar_answer engine")
    ∧ Event.netSearch ∈
        (generateAnswerWithSonar pC1 stEmpty envK (.ok ⟨[]⟩) 5 (.ok none) 7).2.2 := by
  constructor
  · decide
  · decide

/-- C1 (amended): when `sonar_model` is absent, the API key is configured
and the evidence search succeeds, `generateAnswerWithSonar` rejects with
the plain error "Sonar model is required for sonar_answer engine" before
the escalation request is issued (no Sonar network event) — but only
after the evidence search has already run, and with a plain message
error, not a coded INVALID_PARAMETERS `WebSearchError`. -/
theorem C1_amended (params : SonarSearchParams) (st : WebState) (env : Env)
    (searchNet : Except JsError RawSearchResponse) (searchElapsed : Int)
    (sonarNet : Except JsError (Option SonarRaw)) (sonarElapsed : Int)
    (res : SearchWebResult)
    (hm : params.sonar_model = none)
    (hk : env.PERPLEXITY_API_KEY.isSome = true)
    (hs : (searchWeb params.toSearchWebParams st env searchNet searchElapsed).1
            = .ok res) :
    (generateAnswerWithSonar params st env searchNet searchElapsed
        sonarNet sonarElapsed).1
      = .error (.plain "Sonar model is required for sonar_answer engine")
    ∧ Event.netSonar ∉
        (generateAnswerWithSonar params st env searchNet searchElapsed
          sonarNet sonarElapsed).2.2 := by
  obtain ⟨key, hkey⟩ := Option.isSome_iff_exists.mp hk
  have hng : generateAnswerWithSonar params st env searchNet searchElapsed
        sonarNet sonarElapsed
      = (.error (.plain "Sonar model is required for sonar_answer engine"),
         (searchWeb params.toSearchWebParams st env searchNet searchElapsed).2.1,
         (searchWeb params.toSearchWebParams st env searchNet searchElapsed).2.2) := by
    simp only [generateAnswerWithSonar, hs, hkey, hm]
  rw [hng]
  exact ⟨rfl, searchWeb_no_netSonar params.toSearchWebParams st env searchNet searchElapsed⟩

/-- C1 witness: a concrete call without `sonar_model` whose evidence
search succeeds. -/
theorem C1_amended_witness :
    (generateAnswerWithSonar pC1 stEmpty envK (.ok ⟨[]⟩) 5 (.ok none) 7).1
      = .error (.plain "Sonar model is required for sonar_answer engine")
    ∧ Event.netSonar ∉
        (generateAnswerWithSonar pC1 stEmpty envK (.ok ⟨[]⟩) 5 (.ok none) 7).2.2 :=
  C1_amended pC1 stEmpty envK (.ok ⟨[]⟩) 5 (.ok none) 7
    ⟨[], ⟨"x", 10, TimeRange.any, calculateCost 0, false, 5⟩, none, none, none⟩
    rfl rfl rfl

/-- C2: the claim (and spec) say citations default to the evidence
results when the escalation engine supplies none; but
`normalizeSonarResults` always returns a citations *array* (empty when
the engine supplied none), and a JS array — even empty — is truthy, so
`normalizedResults.citations || searchResults.results` never falls back:
with one evidence result and an engine response without citations, the
returned citations are `[]`, not the evidence results. -/
theorem C2_bug_eval :
    resultResults (generateAnswerWithSonar pC2 stEmpty envK (.ok rawC2) 3
        (.ok (some sonarNoCitations)) 4).1 = some [evidenceC2]
    ∧ resultCitations (generateAnswerWithSonar pC2 stEmpty envK (.ok rawC2) 3
        (.ok (some sonarNoCitations)) 4).1 = some []
    ∧ some [evidenceC2]
      ≠ resultCitations (generateAnswerWithSonar pC2 stEmpty envK (.ok rawC2) 3
          (.ok (some sonarNoCitations)) 4).1 := by
  refine ⟨by decide, by decide, by decide⟩

end Spec
